import Mathlib

/-!
Shallow embedding of the Raft replication engine and KV coordinator from
shady831213/6.824-MIT (src/raft/raft.go and src/kvraft/server.go).

Go `int` is modelled as `Int`; Go slices as `List`; Go maps as functions
into `Option`.  Commands (Go `interface{}`) are modelled as `Int` on the
Raft side and as `Option Op` on the KV apply side.  Each definition
mirrors the Go function of the same name.
-/

namespace Raft

/-- Mirrors Go `RaftRole` (raft.go lines 46-54). -/
inductive RaftRole where
  | RaftFollower
  | RaftCandidate
  | RaftLeader
  | RaftStop
deriving DecidableEq, Repr

/-- Mirrors Go `RaftLogEntry{Command interface{}; Term int}` (raft.go lines 64-67). -/
structure RaftLogEntry where
  Command : Int
  Term : Int
deriving DecidableEq, Repr

instance : Inhabited RaftLogEntry := ⟨⟨0, 0⟩⟩

/-- The mutable Raft state relevant to the claims: persistent fields
(`currentTerm`, `votedFor`, `logs`), volatile fields (`commitIndex`,
`lastApplied`), the role, and the leader-only `nextIndex`/`matchedIndex`
(raft.go lines 72-103).  `numPeers` stands for `len(rf.peers)`. -/
structure RaftState where
  currentTerm : Int
  votedFor : Int
  logs : List RaftLogEntry
  commitIndex : Int
  lastApplied : Int
  role : RaftRole
  numPeers : Nat
  nextIndex : List Int
  matchedIndex : List Int
deriving DecidableEq, Repr

/-- Mirrors Go `AppendEntriesArgs` (raft.go lines 245-253). -/
structure AppendEntriesArgs where
  Term : Int
  LeaderId : Int
  PrevLogIndex : Int
  PrevLogTerm : Int
  Entries : List RaftLogEntry
  LeaderCommit : Int
deriving DecidableEq, Repr

/-- Mirrors Go `AppendEntriesReply` (raft.go lines 259-263). -/
structure AppendEntriesReply where
  Term : Int
  Success : Bool
deriving DecidableEq, Repr

/-- Mirrors Go `RequestVoteArgs` (raft.go lines 192-198). -/
structure RequestVoteArgs where
  Term : Int
  CandidateId : Int
  LastLogIndex : Int
  LastLogTerm : Int
deriving DecidableEq, Repr

/-- Mirrors Go `RequestVoteReply` (raft.go lines 204-208). -/
structure RequestVoteReply where
  Term : Int
  VoteGranted : Bool
deriving DecidableEq, Repr

/-- Mirrors `lastLogEntryInfo` (raft.go lines 137-141):
`lastIndex := len(rf.logs) - 1; lastTerm := rf.logs[lastIndex].Term`. -/
def lastLogEntryInfo (rf : RaftState) : Int × Int :=
  let lastIndex : Int := (rf.logs.length : Int) - 1
  (lastIndex, (rf.logs.getD lastIndex.toNat default).Term)

/-- The conflict-check loop inside `appendEntries` (raft.go lines 497-508).
It walks `rf.logs[prev+1:]` with running index `i`, breaking when `i - prev`
runs past `newEntries`, and truncating at the first term mismatch.  (After
the preceding truncation `rf.logs[:prev+1]` this loop is unreachable, since
the guard `prev < len(rf.logs)-1` is then false; it is embedded for
fidelity.)  Negative Go slice indices, which would panic, are modelled via
`Int.toNat`. -/
def conflictLoop (prev : Int) (logs suffix newEntries : List RaftLogEntry) (i : Nat) :
    List RaftLogEntry × List RaftLogEntry :=
  match suffix with
  | [] => (logs, newEntries)
  | e :: rest =>
    if (i : Int) - prev > (newEntries.length : Int) - 1 then
      (logs, newEntries)
    else if e.Term ≠ (newEntries.getD ((i : Int) - prev).toNat default).Term then
      (logs.take i, newEntries.drop ((i : Int) - prev).toNat)
    else
      conflictLoop prev logs rest newEntries (i + 1)

/-- Mirrors `appendEntries` (raft.go lines 472-521).  Returns the updated
state together with the reply.  Rejection: stale term, missing
`PrevLogIndex`, or term mismatch at `PrevLogIndex`.  Acceptance: truncate
to `logs[:PrevLogIndex+1]`, run the (dead) conflict loop, append the new
entries, and update `commitIndex` when `LeaderCommit > commitIndex`. -/
def appendEntries (rf : RaftState) (args : AppendEntriesArgs) :
    RaftState × AppendEntriesReply :=
  let replyTerm := rf.currentTerm
  if args.Term < rf.currentTerm then
    (rf, ⟨replyTerm, false⟩)
  else if args.PrevLogIndex > (rf.logs.length : Int) - 1 then
    (rf, ⟨replyTerm, false⟩)
  else if (rf.logs.getD args.PrevLogIndex.toNat default).Term ≠ args.PrevLogTerm then
    (rf, ⟨replyTerm, false⟩)
  else
    let newEntries := args.Entries
    let logs1 := rf.logs.take (args.PrevLogIndex + 1).toNat
    let checked :=
      if args.PrevLogIndex < (logs1.length : Int) - 1 then
        conflictLoop args.PrevLogIndex logs1
          (logs1.drop (args.PrevLogIndex + 1).toNat) newEntries 0
      else (logs1, newEntries)
    let logs2 := checked.1 ++ checked.2
    let commitIndex' :=
      if args.LeaderCommit > rf.commitIndex then
        let c : Int := (logs2.length : Int) - 1
        if args.LeaderCommit < c then args.LeaderCommit else c
      else rf.commitIndex
    ({ rf with logs := logs2, commitIndex := commitIndex' }, ⟨replyTerm, true⟩)

end Raft

namespace Raft

/-- C1 helper: the rejection condition of `appendEntries` as stated by the
spec — stale term, `PrevLogIndex` beyond the last log index, or a term
mismatch at `PrevLogIndex`. -/
def rejectCond (rf : RaftState) (args : AppendEntriesArgs) : Prop :=
  args.Term < rf.currentTerm ∨
  args.PrevLogIndex > (rf.logs.length : Int) - 1 ∨
  (rf.logs.getD args.PrevLogIndex.toNat default).Term ≠ args.PrevLogTerm

instance (rf : RaftState) (args : AppendEntriesArgs) : Decidable (rejectCond rf args) := by
  unfold rejectCond; infer_instance

/-- On acceptance the truncation `logs[:prev+1]` leaves exactly `prev+1`
entries, so the conflict-loop guard `prev < len(logs1)-1` is false and the
whole handler reduces to truncate-then-append plus the commit update. -/
theorem appendEntries_accept_eq (rf : RaftState) (args : AppendEntriesArgs)
    (hp : 0 ≤ args.PrevLogIndex)
    (hterm : ¬ args.Term < rf.currentTerm)
    (hlen : ¬ args.PrevLogIndex > (rf.logs.length : Int) - 1)
    (hmatch : (rf.logs.getD args.PrevLogIndex.toNat default).Term = args.PrevLogTerm) :
    appendEntries rf args =
      ({ rf with
          logs := rf.logs.take (args.PrevLogIndex + 1).toNat ++ args.Entries,
          commitIndex :=
            if args.LeaderCommit > rf.commitIndex then
              if args.LeaderCommit <
                  ((rf.logs.take (args.PrevLogIndex + 1).toNat ++ args.Entries).length : Int) - 1
              then args.LeaderCommit
              else ((rf.logs.take (args.PrevLogIndex + 1).toNat ++ args.Entries).length : Int) - 1
            else rf.commitIndex },
        ⟨rf.currentTerm, true⟩) := by
  have hlen' : (args.PrevLogIndex + 1).toNat ≤ rf.logs.length := by
    omega
  have htake : (rf.logs.take (args.PrevLogIndex + 1).toNat).length =
      (args.PrevLogIndex + 1).toNat := by
    simp [List.length_take]
    omega
  have hguard : ¬ args.PrevLogIndex <
      ((rf.logs.take (args.PrevLogIndex + 1).toNat).length : Int) - 1 := by
    rw [htake]
    omega
  unfold appendEntries
  rw [if_neg hterm, if_neg hlen, if_neg (not_ne_iff.mpr hmatch)]
  simp only [if_neg hguard]

/-- On rejection the handler leaves the state untouched and replies
`{Term := currentTerm, Success := false}`. -/
theorem appendEntries_reject_eq (rf : RaftState) (args : AppendEntriesArgs)
    (h : rejectCond rf args) :
    appendEntries rf args = (rf, ⟨rf.currentTerm, false⟩) := by
  unfold appendEntries
  rcases h with h1 | h2 | h3
  · rw [if_pos h1]
  · by_cases h1 : args.Term < rf.currentTerm
    · rw [if_pos h1]
    · rw [if_neg h1, if_pos h2]
  · by_cases h1 : args.Term < rf.currentTerm
    · rw [if_pos h1]
    · by_cases h2 : args.PrevLogIndex > (rf.logs.length : Int) - 1
      · rw [if_neg h1, if_pos h2]
      · rw [if_neg h1, if_neg h2, if_pos h3]

/-- C1.  For every AppendEntries request (with the Go-reachable bound
`0 ≤ PrevLogIndex`), the handler replies `success=false` exactly when
`args.Term < currentTerm`, or `args.PrevLogIndex` exceeds the last log
index, or the entry at `PrevLogIndex` has a term different from
`args.PrevLogTerm`; otherwise it truncates the log to the prefix ending at
`PrevLogIndex`, appends `args.Entries`, sets
`commitIndex := min(LeaderCommit, new last index)` whenever
`LeaderCommit > commitIndex` (and leaves it otherwise), and replies
`success=true`; the reply always carries `Term = currentTerm`. -/
theorem c1_appendEntries_contract (rf : RaftState) (args : AppendEntriesArgs)
    (hp : 0 ≤ args.PrevLogIndex) :
    ((appendEntries rf args).2.Success = false ↔ rejectCond rf args) ∧
    (appendEntries rf args).2.Term = rf.currentTerm ∧
    ((appendEntries rf args).2.Success = true →
      (appendEntries rf args).1.logs =
        rf.logs.take (args.PrevLogIndex + 1).toNat ++ args.Entries ∧
      (rf.commitIndex < args.LeaderCommit →
        (appendEntries rf args).1.commitIndex =
          min args.LeaderCommit (((appendEntries rf args).1.logs.length : Int) - 1)) ∧
      (¬ rf.commitIndex < args.LeaderCommit →
        (appendEntries rf args).1.commitIndex = rf.commitIndex)) := by
  by_cases h : rejectCond rf args
  · rw [appendEntries_reject_eq rf args h]
    refine ⟨by simpa using h, rfl, ?_⟩
    intro hfalse
    simp at hfalse
  · have h1 : ¬ args.Term < rf.currentTerm := fun hc => h (Or.inl hc)
    have h2 : ¬ args.PrevLogIndex > (rf.logs.length : Int) - 1 :=
      fun hc => h (Or.inr (Or.inl hc))
    have h3 : (rf.logs.getD args.PrevLogIndex.toNat default).Term = args.PrevLogTerm := by
      by_contra hc
      exact h (Or.inr (Or.inr hc))
    rw [appendEntries_accept_eq rf args hp h1 h2 h3]
    refine ⟨by simpa using h, rfl, fun _ => ⟨rfl, ?_, ?_⟩⟩
    · intro hlc
      rw [if_pos hlc]
      rcases lt_or_ge args.LeaderCommit
        (((rf.logs.take (args.PrevLogIndex + 1).toNat ++ args.Entries).length : Int) - 1) with hc | hc
      · rw [if_pos hc]
        dsimp only
        omega
      · rw [if_neg (not_lt.mpr hc)]
        dsimp only
        omega
    · intro hlc
      rw [if_neg hlc]

/-- Mirrors `requestVote` (raft.go lines 438-470): reply `Term` is always
`currentTerm`; the vote is refused on a stale term, a conflicting earlier
vote (`votedFor >= 0 && votedFor != CandidateId`), or a less up-to-date
candidate log; otherwise it is granted and `votedFor := CandidateId`. -/
def requestVote (rf : RaftState) (args : RequestVoteArgs) :
    RaftState × RequestVoteReply :=
  let li := lastLogEntryInfo rf
  let replyTerm := rf.currentTerm
  if args.Term < rf.currentTerm then
    (rf, ⟨replyTerm, false⟩)
  else if 0 ≤ rf.votedFor ∧ rf.votedFor ≠ args.CandidateId then
    (rf, ⟨replyTerm, false⟩)
  else if args.LastLogTerm < li.2 then
    (rf, ⟨replyTerm, false⟩)
  else if args.LastLogTerm = li.2 ∧ args.LastLogIndex < li.1 then
    (rf, ⟨replyTerm, false⟩)
  else
    ({ rf with votedFor := args.CandidateId }, ⟨replyTerm, true⟩)

/-- C2 helper: the grant condition as the spec states it — the term is not
stale, `votedFor` is none (negative) or already the candidate, and the
candidate's log is at least as up-to-date: a strictly greater last term, or
an equal last term with at least as great a last index. -/
def voteGrantCond (rf : RaftState) (args : RequestVoteArgs) : Prop :=
  ¬ args.Term < rf.currentTerm ∧
  (rf.votedFor < 0 ∨ rf.votedFor = args.CandidateId) ∧
  ((lastLogEntryInfo rf).2 < args.LastLogTerm ∨
    (args.LastLogTerm = (lastLogEntryInfo rf).2 ∧
      (lastLogEntryInfo rf).1 ≤ args.LastLogIndex))

instance (rf : RaftState) (args : RequestVoteArgs) : Decidable (voteGrantCond rf args) := by
  unfold voteGrantCond; infer_instance

/-- C2.  RequestVote grants the vote iff `voteGrantCond` holds; on a grant
`votedFor` becomes `args.CandidateId`; the reply always carries
`Term = currentTerm`; a refusal leaves the state unchanged. -/
theorem c2_requestVote_contract (rf : RaftState) (args : RequestVoteArgs) :
    (((requestVote rf args).2.VoteGranted = true) ↔ voteGrantCond rf args) ∧
    ((requestVote rf args).2.VoteGranted = true →
      (requestVote rf args).1.votedFor = args.CandidateId) ∧
    (requestVote rf args).2.Term = rf.currentTerm ∧
    ((requestVote rf args).2.VoteGranted = false → (requestVote rf args).1 = rf) := by
  unfold requestVote voteGrantCond
  dsimp only
  split_ifs with h1 h2 h3 h4
  · exact ⟨by simp [h1], by simp, rfl, fun _ => rfl⟩
  · refine ⟨?_, by simp, rfl, fun _ => rfl⟩
    simp only [Bool.false_eq_true, false_iff]
    rintro ⟨-, hv, -⟩
    rcases hv with hv | hv
    · omega
    · exact h2.2 hv
  · refine ⟨?_, by simp, rfl, fun _ => rfl⟩
    simp only [Bool.false_eq_true, false_iff]
    rintro ⟨-, -, hu⟩
    rcases hu with hu | hu
    · omega
    · omega
  · refine ⟨?_, by simp, rfl, fun _ => rfl⟩
    simp only [Bool.false_eq_true, false_iff]
    rintro ⟨-, -, hu⟩
    rcases hu with hu | hu
    · omega
    · omega
  · refine ⟨?_, fun _ => rfl, rfl, by simp⟩
    simp only [true_iff]
    refine ⟨h1, ?_, ?_⟩
    · by_cases hv : 0 ≤ rf.votedFor
      · right
        by_contra hne
        exact h2 ⟨hv, hne⟩
      · left; omega
    · rcases lt_or_ge args.LastLogTerm (lastLogEntryInfo rf).2 with hc | hc
      · exact absurd hc h3
      · rcases eq_or_lt_of_le hc with hc' | hc'
        · right
          refine ⟨hc'.symm, ?_⟩
          by_contra hlt
          exact h4 ⟨hc'.symm, by omega⟩
        · left; exact hc'

/-- Witness for C1 at a concrete accepted request: a follower with log
`[(0,0),(1,1)]` accepts `PrevLogIndex=1, Entries=[(2,1)], LeaderCommit=2`. -/
theorem c1_appendEntries_contract_witness :
    (0 : Int) ≤ 1 ∧
    (((appendEntries ⟨1, -1, [⟨0, 0⟩, ⟨1, 1⟩], 0, 0, .RaftFollower, 3, [], []⟩
        ⟨1, 0, 1, 1, [⟨2, 1⟩], 2⟩).2.Success = false ↔
      rejectCond ⟨1, -1, [⟨0, 0⟩, ⟨1, 1⟩], 0, 0, .RaftFollower, 3, [], []⟩
        ⟨1, 0, 1, 1, [⟨2, 1⟩], 2⟩) ∧
    (appendEntries ⟨1, -1, [⟨0, 0⟩, ⟨1, 1⟩], 0, 0, .RaftFollower, 3, [], []⟩
        ⟨1, 0, 1, 1, [⟨2, 1⟩], 2⟩).2.Term = 1 ∧
    ((appendEntries ⟨1, -1, [⟨0, 0⟩, ⟨1, 1⟩], 0, 0, .RaftFollower, 3, [], []⟩
        ⟨1, 0, 1, 1, [⟨2, 1⟩], 2⟩).2.Success = true →
      (appendEntries ⟨1, -1, [⟨0, 0⟩, ⟨1, 1⟩], 0, 0, .RaftFollower, 3, [], []⟩
          ⟨1, 0, 1, 1, [⟨2, 1⟩], 2⟩).1.logs =
        ([⟨0, 0⟩, ⟨1, 1⟩] : List RaftLogEntry).take (((1 : Int) + 1)).toNat ++ [⟨2, 1⟩] ∧
      ((0 : Int) < 2 →
        (appendEntries ⟨1, -1, [⟨0, 0⟩, ⟨1, 1⟩], 0, 0, .RaftFollower, 3, [], []⟩
            ⟨1, 0, 1, 1, [⟨2, 1⟩], 2⟩).1.commitIndex =
          min 2 (((appendEntries ⟨1, -1, [⟨0, 0⟩, ⟨1, 1⟩], 0, 0, .RaftFollower, 3, [], []⟩
              ⟨1, 0, 1, 1, [⟨2, 1⟩], 2⟩).1.logs.length : Int) - 1)) ∧
      (¬ (0 : Int) < 2 →
        (appendEntries ⟨1, -1, [⟨0, 0⟩, ⟨1, 1⟩], 0, 0, .RaftFollower, 3, [], []⟩
            ⟨1, 0, 1, 1, [⟨2, 1⟩], 2⟩).1.commitIndex = 0))) :=
  ⟨by decide,
   c1_appendEntries_contract ⟨1, -1, [⟨0, 0⟩, ⟨1, 1⟩], 0, 0, .RaftFollower, 3, [], []⟩
     ⟨1, 0, 1, 1, [⟨2, 1⟩], 2⟩ (by decide)⟩

/-- Mirrors a vote response `requestVoteResp{args, reply, server}`
(raft.go lines 216-220); `server` is a peer index. -/
structure RequestVoteResp where
  args : RequestVoteArgs
  reply : RequestVoteReply
  server : Nat
deriving DecidableEq, Repr

/-- Mirrors an append response `appendEntriesResp{args, reply, server}`
(raft.go lines 271-275). -/
structure AppendEntriesResp where
  args : AppendEntriesArgs
  reply : AppendEntriesReply
  server : Nat
deriving DecidableEq, Repr

/-- Mirrors `updateTerm` (raft.go lines 541-551): on a strictly newer term,
clear `votedFor` and adopt the term; returns whether an update happened. -/
def updateTerm (rf : RaftState) (term : Int) : RaftState × Bool :=
  if rf.currentTerm < term then
    ({ rf with votedFor := -1, currentTerm := term }, true)
  else
    (rf, false)

/-- Mirrors `backToFollower` (raft.go lines 553-560): `updateTerm`; when it
updated, set the role to Follower and then run the action, returning `true`;
otherwise just run the action and return `false`.  The action stands for the
`actions ...func()` closure run under `doActions`. -/
def backToFollower (rf : RaftState) (term : Int)
    (action : RaftState → RaftState × α) : RaftState × α × Bool :=
  let u := updateTerm rf term
  if u.2 then
    let a := action { u.1 with role := .RaftFollower }
    (a.1, a.2, true)
  else
    let a := action u.1
    (a.1, a.2, false)

/-- The Candidate's `appendEntriesReqAction` (raft.go lines 713-719):
`backToFollower(args.Term, appendEntries)` followed by an unconditional
`setRole(RaftFollower)`; always exits the candidate handler (`return true`).
Returns (new state, reply, handler-exit flag). -/
def candidateAppendEntriesReqAction (rf : RaftState) (args : AppendEntriesArgs) :
    RaftState × AppendEntriesReply × Bool :=
  let r := backToFollower rf args.Term (fun s => appendEntries s args)
  ({ r.1 with role := .RaftFollower }, r.2.1, true)

/-- The Candidate's `requestVoteRespAction` (raft.go lines 699-712): revert
to Follower on a newer reply term; otherwise a granted vote increments the
tally, and reaching a majority (`votes > len(peers)/2`) makes this node
Leader.  Returns (new state, new tally, handler-exit flag). -/
def candidateVoteRespAction (rf : RaftState) (votes : Nat) (resp : RequestVoteResp) :
    RaftState × Nat × Bool :=
  let r := backToFollower rf resp.reply.Term (fun s => (s, ()))
  if r.2.2 then
    (r.1, votes, true)
  else if resp.reply.VoteGranted then
    let votes' := votes + 1
    if votes' > rf.numPeers / 2 then
      ({ r.1 with role := .RaftLeader }, votes', true)
    else
      (r.1, votes', false)
  else
    (r.1, votes, false)

/-- Mirrors the loop body of `updateCommitIndex` (raft.go lines 562-573):
`count` starts at 1 (the leader); each `m` in `matchedIndex` with
`m >= index && logs[index].Term == currentTerm` increments it; as soon as
`count > len(peers)/2`, set `commitIndex := index` and return. -/
def updateCommitIndexLoop (rf : RaftState) (index : Int) (ms : List Int) (count : Nat) :
    RaftState :=
  match ms with
  | [] => rf
  | m :: rest =>
    let count' :=
      if index ≤ m ∧ (rf.logs.getD index.toNat default).Term = rf.currentTerm then
        count + 1
      else count
    if count' > rf.numPeers / 2 then
      { rf with commitIndex := index }
    else
      updateCommitIndexLoop rf index rest count'

/-- Mirrors `updateCommitIndex` (raft.go lines 562-573). -/
def updateCommitIndex (rf : RaftState) (index : Int) : RaftState :=
  updateCommitIndexLoop rf index rf.matchedIndex 1

/-- The Leader's `appendEntriesRespAction` (raft.go lines 758-782): revert
to Follower on a newer reply term; on `Success`, record
`matchedIndex := PrevLogIndex + len(Entries)`, set
`nextIndex := matchedIndex + 1`, and attempt a commit advance when
`matchedIndex > commitIndex`; on failure, decrement `nextIndex[server]`
(floor 1) and retry.  Returns (new state, handler-exit flag). -/
def leaderAppendEntriesRespAction (rf : RaftState) (resp : AppendEntriesResp) :
    RaftState × Bool :=
  let r := backToFollower rf resp.reply.Term (fun s => (s, ()))
  if r.2.2 then
    (r.1, true)
  else if resp.reply.Success then
    let matchedIndex := resp.args.PrevLogIndex + (resp.args.Entries.length : Int)
    let rf1 := { r.1 with
      role := .RaftLeader,
      nextIndex := r.1.nextIndex.set resp.server (matchedIndex + 1),
      matchedIndex := r.1.matchedIndex.set resp.server matchedIndex }
    (if matchedIndex > rf1.commitIndex then updateCommitIndex rf1 matchedIndex else rf1,
     false)
  else
    let rf1 : RaftState := { r.1 with role := .RaftLeader }
    (if (1 : Int) < rf1.nextIndex.getD resp.server 0 then
      { rf1 with
        nextIndex := rf1.nextIndex.set resp.server (rf1.nextIndex.getD resp.server 0 - 1) }
     else rf1,
     false)

/-- Heartbeat period in milliseconds: Go `RaftHeartBeatPeriod = 100 * time.Millisecond`
(raft.go line 56). -/
def RaftHeartBeatPeriodMs : Int := 100

/-- Mirrors `getElectionTimeout` (raft.go lines 523-525):
`time.Duration(rand.Int()%10+2) * RaftHeartBeatPeriod`, as a function of the
non-negative value returned by `rand.Int()`; the result is in milliseconds. -/
def getElectionTimeout (r : Nat) : Int :=
  ((r % 10 : Nat) + 2 : Int) * RaftHeartBeatPeriodMs

/-- `updateTerm` is a no-op (and reports no update) when the incoming term
is not strictly newer. -/
theorem updateTerm_stale (rf : RaftState) (term : Int) (h : ¬ rf.currentTerm < term) :
    updateTerm rf term = (rf, false) := by
  unfold updateTerm
  rw [if_neg h]

/-- C5 counterexample.  A Candidate at term 5 receiving an AppendEntries
request with stale term 3 does NOT remain Candidate: the handler demotes it
to Follower (while rejecting the request), contradicting the claim that a
stale-term AppendEntries leaves it Candidate. -/
theorem c5_counterexample :
    (⟨3, 0, 0, 0, [], 0⟩ : AppendEntriesArgs).Term <
      (⟨5, -1, [⟨0, 0⟩], 0, 0, .RaftCandidate, 3, [], []⟩ : RaftState).currentTerm ∧
    (candidateAppendEntriesReqAction ⟨5, -1, [⟨0, 0⟩], 0, 0, .RaftCandidate, 3, [], []⟩
        ⟨3, 0, 0, 0, [], 0⟩).1.role = .RaftFollower ∧
    (candidateAppendEntriesReqAction ⟨5, -1, [⟨0, 0⟩], 0, 0, .RaftCandidate, 3, [], []⟩
        ⟨3, 0, 0, 0, [], 0⟩).2.1.Success = false := by
  decide

/-- C5 amended.  A Candidate forfeits candidacy and becomes Follower on
EVERY incoming AppendEntries request, regardless of the request's term; a
request with term strictly below `currentTerm` is rejected
(`Success = false`) but still demotes the Candidate to Follower, and the
handler always exits the candidate state. -/
theorem c5_candidate_demoted_always (rf : RaftState) (args : AppendEntriesArgs) :
    (candidateAppendEntriesReqAction rf args).1.role = .RaftFollower ∧
    (candidateAppendEntriesReqAction rf args).2.2 = true ∧
    (args.Term < rf.currentTerm →
      (candidateAppendEntriesReqAction rf args).2.1.Success = false) := by
  refine ⟨rfl, rfl, ?_⟩
  intro h
  have hu : updateTerm rf args.Term = (rf, false) := updateTerm_stale rf args.Term (by omega)
  simp only [candidateAppendEntriesReqAction, backToFollower, hu]
  simp [appendEntries_reject_eq rf args (Or.inl h)]

/-- Witness for C5's amended theorem at the counterexample input. -/
theorem c5_candidate_demoted_always_witness :
    (3 : Int) < 5 ∧
    (candidateAppendEntriesReqAction ⟨5, -1, [⟨0, 0⟩], 0, 0, .RaftCandidate, 3, [], []⟩
        ⟨3, 0, 0, 0, [], 0⟩).2.1.Success = false :=
  ⟨by decide,
   (c5_candidate_demoted_always ⟨5, -1, [⟨0, 0⟩], 0, 0, .RaftCandidate, 3, [], []⟩
     ⟨3, 0, 0, 0, [], 0⟩).2.2 (by decide)⟩

/-- C9.  In the Candidate's vote-response handler, any response whose reply
carries `VoteGranted = true` and a reply term not above `currentTerm`
increments the tally — even when the response's request term
(`resp.args.Term`) is strictly below the current term, i.e. a buffered
response from an earlier candidacy; no comparison with `resp.args.Term` is
performed.  Reaching `votes+1 > len(peers)/2` then wins the election. -/
theorem c9_stale_vote_counted (rf : RaftState) (votes : Nat) (resp : RequestVoteResp)
    (hterm : resp.reply.Term ≤ rf.currentTerm)
    (hgrant : resp.reply.VoteGranted = true)
    (hstale : resp.args.Term < rf.currentTerm) :
    (candidateVoteRespAction rf votes resp).2.1 = votes + 1 ∧
    (votes + 1 > rf.numPeers / 2 →
      (candidateVoteRespAction rf votes resp).1.role = .RaftLeader ∧
      (candidateVoteRespAction rf votes resp).2.2 = true) ∧
    (¬ votes + 1 > rf.numPeers / 2 →
      (candidateVoteRespAction rf votes resp).1 = rf ∧
      (candidateVoteRespAction rf votes resp).2.2 = false) := by
  have hu : updateTerm rf resp.reply.Term = (rf, false) :=
    updateTerm_stale rf resp.reply.Term (by omega)
  by_cases hm : votes + 1 > rf.numPeers / 2
  · simp [candidateVoteRespAction, backToFollower, hu, hgrant, hm]
  · simp [candidateVoteRespAction, backToFollower, hu, hgrant, hm]

/-- Witness for C9: a candidate at term 5 in a 3-peer cluster counts a
granted vote buffered from its term-2 candidacy and becomes Leader. -/
theorem c9_stale_vote_counted_witness :
    (2 : Int) ≤ 5 ∧
    (candidateVoteRespAction ⟨5, 0, [⟨0, 0⟩], 0, 0, .RaftCandidate, 3, [], []⟩ 1
        ⟨⟨2, 0, 0, 0⟩, ⟨2, true⟩, 1⟩).2.1 = 2 :=
  ⟨by decide,
   (c9_stale_vote_counted ⟨5, 0, [⟨0, 0⟩], 0, 0, .RaftCandidate, 3, [], []⟩ 1
      ⟨⟨2, 0, 0, 0⟩, ⟨2, true⟩, 1⟩ (by decide) (by decide) (by decide)).1⟩

/-- The Boolean counting predicate of the `updateCommitIndex` loop: slot `m`
counts when `m >= index` and the entry at `index` carries the current term. -/
def commitCountPred (rf : RaftState) (index : Int) (m : Int) : Bool :=
  decide (index ≤ m ∧ (rf.logs.getD index.toNat default).Term = rf.currentTerm)

/-- The commit loop either leaves the state unchanged or sets
`commitIndex := index` and changes nothing else. -/
theorem updateCommitIndexLoop_shape (rf : RaftState) (index : Int)
    (ms : List Int) (count : Nat) :
    updateCommitIndexLoop rf index ms count = rf ∨
    updateCommitIndexLoop rf index ms count = { rf with commitIndex := index } := by
  induction ms generalizing count with
  | nil => exact Or.inl rfl
  | cons m rest ih =>
    rw [updateCommitIndexLoop]
    by_cases hc : index ≤ m ∧ (rf.logs.getD index.toNat default).Term = rf.currentTerm
    · rw [if_pos hc]
      by_cases ht : count + 1 > rf.numPeers / 2
      · rw [if_pos ht]
        exact Or.inr rfl
      · rw [if_neg ht]
        exact ih _
    · rw [if_neg hc]
      by_cases ht : count > rf.numPeers / 2
      · rw [if_pos ht]
        exact Or.inr rfl
      · rw [if_neg ht]
        exact ih _

/-- If the commit loop fired, the running count plus the counted suffix
exceeded the majority threshold `len(peers)/2`. -/
theorem updateCommitIndexLoop_majority (rf : RaftState) (index : Int)
    (ms : List Int) (count : Nat)
    (h : (updateCommitIndexLoop rf index ms count).commitIndex ≠ rf.commitIndex) :
    rf.numPeers / 2 < count + ms.countP (commitCountPred rf index) := by
  induction ms generalizing count with
  | nil => exact absurd rfl h
  | cons m rest ih =>
    rw [updateCommitIndexLoop] at h
    rw [List.countP_cons]
    by_cases hc : index ≤ m ∧ (rf.logs.getD index.toNat default).Term = rf.currentTerm
    · have hcb : commitCountPred rf index m = true := decide_eq_true hc
      rw [hcb, if_pos rfl]
      rw [if_pos hc] at h
      by_cases ht : count + 1 > rf.numPeers / 2
      · omega
      · rw [if_neg ht] at h
        have hrec := ih (count + 1) h
        omega
    · have hcb : commitCountPred rf index m = false :=
        decide_eq_false hc
      rw [hcb]
      rw [if_neg (by simp)]
      rw [if_neg hc] at h
      by_cases ht : count > rf.numPeers / 2
      · omega
      · rw [if_neg ht] at h
        have hrec := ih count h
        omega

/-- If `updateCommitIndex` changed `commitIndex`, the whole state change is
exactly `commitIndex := index`. -/
theorem updateCommitIndex_changed (rf : RaftState) (index : Int)
    (h : (updateCommitIndex rf index).commitIndex ≠ rf.commitIndex) :
    updateCommitIndex rf index = { rf with commitIndex := index } := by
  rcases updateCommitIndexLoop_shape rf index rf.matchedIndex 1 with he | he
  · exact absurd (by rw [updateCommitIndex, he]) h
  · rw [updateCommitIndex, he]

/-- If `updateCommitIndex` changed `commitIndex` in a cluster of at least
two peers, the entry at `index` carries the current term (no entry of an
older term advances the commit point by counting). -/
theorem updateCommitIndex_term_matches (rf : RaftState) (index : Int)
    (hnp : 2 ≤ rf.numPeers)
    (h : (updateCommitIndex rf index).commitIndex ≠ rf.commitIndex) :
    (rf.logs.getD index.toNat default).Term = rf.currentTerm := by
  by_contra hterm
  have hmaj := updateCommitIndexLoop_majority rf index rf.matchedIndex 1 h
  have hzero : rf.matchedIndex.countP (commitCountPred rf index) = 0 := by
    refine List.countP_eq_zero.mpr ?_
    intro a _
    simp only [commitCountPred, decide_eq_true_eq]
    exact fun hc => hterm hc.2
  rw [hzero] at hmaj
  omega

/-- If `updateCommitIndex` changed `commitIndex` in a cluster of at least
two peers, a majority counted: the leader (the initial `count = 1`) plus
the slots of `matchedIndex` at or above `index` exceed `len(peers)/2`. -/
theorem updateCommitIndex_majority_counted (rf : RaftState) (index : Int)
    (hnp : 2 ≤ rf.numPeers)
    (h : (updateCommitIndex rf index).commitIndex ≠ rf.commitIndex) :
    rf.numPeers / 2 < 1 + rf.matchedIndex.countP (fun m => decide (index ≤ m)) := by
  have hmaj := updateCommitIndexLoop_majority rf index rf.matchedIndex 1 h
  have hT := updateCommitIndex_term_matches rf index hnp h
  have hcong : rf.matchedIndex.countP (commitCountPred rf index) =
      rf.matchedIndex.countP (fun m => decide (index ≤ m)) := by
    refine List.countP_congr ?_
    intro a _
    simp only [commitCountPred, decide_eq_true_eq]
    exact ⟨fun hc => hc.1, fun hc => ⟨hc, hT⟩⟩
  rw [hcong] at hmaj
  exact hmaj

/-- On a successful append response whose reply term is not newer, the
Leader's response action updates `nextIndex`/`matchedIndex` for that server
and attempts a commit advance only when the new matched index exceeds
`commitIndex`. -/
theorem leaderRespSuccess_eq (rf : RaftState) (resp : AppendEntriesResp)
    (hsucc : resp.reply.Success = true)
    (hterm : resp.reply.Term ≤ rf.currentTerm) :
    leaderAppendEntriesRespAction rf resp =
      (if resp.args.PrevLogIndex + (resp.args.Entries.length : Int) > rf.commitIndex then
        updateCommitIndex
          { rf with
            role := .RaftLeader,
            nextIndex := rf.nextIndex.set resp.server
              (resp.args.PrevLogIndex + (resp.args.Entries.length : Int) + 1),
            matchedIndex := rf.matchedIndex.set resp.server
              (resp.args.PrevLogIndex + (resp.args.Entries.length : Int)) }
          (resp.args.PrevLogIndex + (resp.args.Entries.length : Int))
      else
        { rf with
          role := .RaftLeader,
          nextIndex := rf.nextIndex.set resp.server
            (resp.args.PrevLogIndex + (resp.args.Entries.length : Int) + 1),
          matchedIndex := rf.matchedIndex.set resp.server
            (resp.args.PrevLogIndex + (resp.args.Entries.length : Int)) },
       false) := by
  have hu : updateTerm rf resp.reply.Term = (rf, false) :=
    updateTerm_stale rf resp.reply.Term (by omega)
  simp only [leaderAppendEntriesRespAction, backToFollower, hu, hsucc]
  rfl

/-- C4.  In a cluster of at least two peers (the success branch is only
reachable from a peer's response, so another peer exists), whenever the
Leader's handling of a successful append response changes `commitIndex`,
the new value is exactly the candidate index
`N = PrevLogIndex + len(Entries)`, that index exceeds the old
`commitIndex`, the entry at `N` carries the current term, and a majority of
the cluster counted: the leader (initial count 1) plus the `matchedIndex`
slots at or above `N` (after recording this response) exceed
`len(peers)/2`.  In particular an entry whose term differs from
`currentTerm` never advances `commitIndex` by this counting. -/
theorem c4_commit_advance (rf : RaftState) (resp : AppendEntriesResp)
    (hnp : 2 ≤ rf.numPeers)
    (hsucc : resp.reply.Success = true)
    (hterm : resp.reply.Term ≤ rf.currentTerm)
    (hchg : (leaderAppendEntriesRespAction rf resp).1.commitIndex ≠ rf.commitIndex) :
    rf.commitIndex < resp.args.PrevLogIndex + (resp.args.Entries.length : Int) ∧
    (leaderAppendEntriesRespAction rf resp).1.commitIndex =
      resp.args.PrevLogIndex + (resp.args.Entries.length : Int) ∧
    (rf.logs.getD (resp.args.PrevLogIndex + (resp.args.Entries.length : Int)).toNat
        default).Term = rf.currentTerm ∧
    rf.numPeers / 2 < 1 +
      ((rf.matchedIndex.set resp.server
          (resp.args.PrevLogIndex + (resp.args.Entries.length : Int))).countP
        (fun m =>
          decide (resp.args.PrevLogIndex + (resp.args.Entries.length : Int) ≤ m))) := by
  rw [leaderRespSuccess_eq rf resp hsucc hterm] at hchg ⊢
  by_cases hN : resp.args.PrevLogIndex + (resp.args.Entries.length : Int) > rf.commitIndex
  · rw [if_pos hN] at hchg ⊢
    have h2 := updateCommitIndex_changed _ _ hchg
    have h3 := updateCommitIndex_term_matches _ _ (by exact hnp) hchg
    have h4 := updateCommitIndex_majority_counted _ _ (by exact hnp) hchg
    refine ⟨hN, ?_, h3, h4⟩
    rw [h2]
  · rw [if_neg hN] at hchg
    exact absurd rfl hchg

/-- Witness for C4: a 3-peer leader at term 1 with log `[(0,0),(5,1)]`
processes a successful response recording `matchedIndex[1] = 1`; the
majority (leader + peer 1) commits index 1. -/
theorem c4_commit_advance_witness :
    2 ≤ 3 ∧
    ((0 : Int) < 0 + ([⟨5, 1⟩] : List RaftLogEntry).length ∧
     (leaderAppendEntriesRespAction
        ⟨1, 0, [⟨0, 0⟩, ⟨5, 1⟩], 0, 0, .RaftLeader, 3, [2, 2, 2], [0, 0, 0]⟩
        ⟨⟨1, 0, 0, 0, [⟨5, 1⟩], 0⟩, ⟨1, true⟩, 1⟩).1.commitIndex =
       0 + ([⟨5, 1⟩] : List RaftLogEntry).length ∧
     (([⟨0, 0⟩, ⟨5, 1⟩] : List RaftLogEntry).getD
        ((0 : Int) + ([⟨5, 1⟩] : List RaftLogEntry).length).toNat default).Term = 1 ∧
     (3 : Nat) / 2 < 1 +
       ((([0, 0, 0] : List Int).set 1
           ((0 : Int) + ([⟨5, 1⟩] : List RaftLogEntry).length)).countP
         (fun m => decide ((0 : Int) + ([⟨5, 1⟩] : List RaftLogEntry).length ≤ m)))) :=
  ⟨by decide,
   c4_commit_advance
     ⟨1, 0, [⟨0, 0⟩, ⟨5, 1⟩], 0, 0, .RaftLeader, 3, [2, 2, 2], [0, 0, 0]⟩
     ⟨⟨1, 0, 0, 0, [⟨5, 1⟩], 0⟩, ⟨1, true⟩, 1⟩
     (by decide) (by decide) (by decide) (by decide)⟩

/-- C3 failing input (code bug).  A follower with `commitIndex = lastApplied = 2`
and log `[(0,0),(1,1),(2,1)]` accepts an AppendEntries request with the old
`PrevLogIndex = 0`, no entries, and `LeaderCommit = 5`: the handler truncates
the whole log back to the sentinel and then sets
`commitIndex := min(5, 0) = 0`, so `commitIndex` DECREASES from 2 to 0 and
drops below `lastApplied`, violating the invariant that `commitIndex` is
monotone and `commitIndex ≥ lastApplied`. -/
theorem c3_commitIndex_decrease_bug :
    (appendEntries ⟨1, -1, [⟨0, 0⟩, ⟨1, 1⟩, ⟨2, 1⟩], 2, 2, .RaftFollower, 3, [], []⟩
        ⟨1, 0, 0, 0, [], 5⟩).2.Success = true ∧
    (⟨1, -1, [⟨0, 0⟩, ⟨1, 1⟩, ⟨2, 1⟩], 2, 2, .RaftFollower, 3, [], []⟩ :
        RaftState).commitIndex = 2 ∧
    (appendEntries ⟨1, -1, [⟨0, 0⟩, ⟨1, 1⟩, ⟨2, 1⟩], 2, 2, .RaftFollower, 3, [], []⟩
        ⟨1, 0, 0, 0, [], 5⟩).1.commitIndex = 0 ∧
    (appendEntries ⟨1, -1, [⟨0, 0⟩, ⟨1, 1⟩, ⟨2, 1⟩], 2, 2, .RaftFollower, 3, [], []⟩
        ⟨1, 0, 0, 0, [], 5⟩).1.commitIndex <
      (appendEntries ⟨1, -1, [⟨0, 0⟩, ⟨1, 1⟩, ⟨2, 1⟩], 2, 2, .RaftFollower, 3, [], []⟩
        ⟨1, 0, 0, 0, [], 5⟩).1.lastApplied := by
  decide

/-- C8 counterexample.  With `rand.Int() % 10 = 9` the drawn election
timeout is exactly `11·H = 1100 ms`, which is NOT strictly below `11·H`,
contradicting the claimed half-open range `[2·H, 11·H)`. -/
theorem c8_counterexample :
    ¬ getElectionTimeout 9 < 11 * RaftHeartBeatPeriodMs ∧
    getElectionTimeout 9 = 11 * RaftHeartBeatPeriodMs := by
  decide

/-- C8 amended.  Every drawn election timeout is one of the ten values
`{2·H, 3·H, …, 11·H}`: it lies in the CLOSED interval `[2·H, 11·H]`, the
upper bound `11·H` being attainable (see the counterexample), and it is
always an integer multiple `(k+2)·H` with `k = rand.Int() % 10 < 10`. -/
theorem c8_timeout_range (r : Nat) :
    2 * RaftHeartBeatPeriodMs ≤ getElectionTimeout r ∧
    getElectionTimeout r ≤ 11 * RaftHeartBeatPeriodMs ∧
    ∃ k : Nat, k < 10 ∧ getElectionTimeout r = ((k : Int) + 2) * RaftHeartBeatPeriodMs := by
  have hk : r % 10 < 10 := Nat.mod_lt r (by omega)
  refine ⟨?_, ?_, r % 10, hk, rfl⟩
  · unfold getElectionTimeout RaftHeartBeatPeriodMs
    omega
  · unfold getElectionTimeout RaftHeartBeatPeriodMs
    omega

end Raft

namespace Raftkv

/-- Go `OPCode` is a string type; constants `GET = "Get"`, `PUT = "Put"`,
`APPEND = "Append"` (server.go lines 21-27). -/
def GET : String := "Get"

/-- Go `PUT = "Put"` (server.go line 25). -/
def PUT : String := "Put"

/-- Go `APPEND = "Append"` (server.go line 26). -/
def APPEND : String := "Append"

/-- Modelled from the spec: kvraft/common.go is not under src/; §6 gives
`err ∈ { "OK", "ErrNoKey" }` with Go `Err` a string type. -/
def OK : String := "OK"

/-- Modelled from the spec: the `"ErrNoKey"` error value of kvraft/common.go. -/
def ErrNoKey : String := "ErrNoKey"

/-- Mirrors Go `Op` (server.go lines 38-48); `OpCode` is the string-typed
`OPCode`.  `Inhabited` gives the Go zero value (empty strings, zeros), the
result of a failed type assertion `Command.(Op)`. -/
structure Op where
  OpCode : String
  ServerId : Int
  ClerkId : Int
  SeqId : Int
  Key : String
  Value : String
deriving DecidableEq, Repr

instance : Inhabited Op := ⟨⟨"", 0, 0, 0, "", ""⟩⟩

/-- Mirrors `raft.ApplyMsg` as consumed by the KV server; the Go
`interface{}` command with its `Command.(Op)` type assertion is modelled by
`Option Op` (`none` = not an `Op`). -/
structure ApplyMsg where
  CommandValid : Bool
  Command : Option Op
  CommandIndex : Int
deriving DecidableEq, Repr

/-- Mirrors Go `ClerkTrackAction` (server.go lines 29-36). -/
inductive ClerkTrackAction where
  | ClerkOK
  | ClerkIgnore
  | ClerkRetry
deriving DecidableEq, Repr

/-- The fields of `KVRPCResp` filled in by `servePendingRPC`
(server.go lines 57-64 and 225-238). -/
structure KVRPCRespFields where
  wrongLeader : Bool
  leader : Int
  err : String
  value : String
deriving DecidableEq, Repr

/-- The KV server state relevant to the claims: the `booting` flag, the
`db` and `clerkTrack` maps (Go maps modelled as functions into `Option`),
and the capacity-1 `committing` channel holding the pending waiter's `Op`
(server.go lines 66-82). -/
structure KVState where
  booting : Bool
  db : String → Option String
  clerkTrack : Int → Option Int
  committing : Option Op

/-- Mirrors `execute` (server.go lines 202-223): `Put` stores the value;
`Get` returns the value or `ErrNoKey`; `Append` concatenates onto the
existing value, or stores the value when the key is absent.  Returns
(new db, value, err). -/
def execute (db : String → Option String) (op : Op) :
    (String → Option String) × String × String :=
  if op.OpCode = PUT then
    (fun k => if k = op.Key then some op.Value else db k, "", OK)
  else if op.OpCode = GET then
    match db op.Key with
    | none => (db, "", ErrNoKey)
    | some v => (db, v, OK)
  else if op.OpCode = APPEND then
    match db op.Key with
    | none => (fun k => if k = op.Key then some op.Value else db k, "", OK)
    | some v => (fun k => if k = op.Key then some (v ++ op.Value) else db k, "", OK)
  else
    (db, "", OK)

/-- Mirrors `updateClerkTrack` (server.go lines 240-244):
`kv.clerkTrack[clerkId] = seqId`, an unconditional overwrite. -/
def updateClerkTrack (clerkTrack : Int → Option Int) (clerkId seqId : Int) :
    Int → Option Int :=
  fun c => if c = clerkId then some seqId else clerkTrack c

/-- Mirrors `checkClerkTrack` (server.go lines 118-135).  `v, ok` is the Go
map lookup (`v = 0` when absent).  Returns the action and the new value of
the `booting` flag. -/
def checkClerkTrack (clerkTrack : Int → Option Int) (booting : Bool)
    (clerkId : Int) (sedId : Int) : ClerkTrackAction × Bool :=
  let v := (clerkTrack clerkId).getD 0
  let ok := (clerkTrack clerkId).isSome
  if (ok = false ∧ 0 < sedId) ∨ v + 1 < sedId then
    (.ClerkRetry, booting)
  else if (ok = false ∧ sedId = 0) ∨ sedId = v + 1 then
    if booting then (.ClerkRetry, false) else (.ClerkOK, booting)
  else
    (.ClerkIgnore, booting)

/-- Mirrors `servePendingRPC` (server.go lines 225-238): when a waiter is
pending on the `committing` channel, fill its fields from the applied
message (`wrongLeader` when the committed op's `(ClerkId, SeqId)` differ
from the waiter's, or the command is not a valid `Op`) and signal it. -/
def servePendingRPC (committing : Option Op) (apply : ApplyMsg)
    (err value : String) : Option KVRPCRespFields :=
  match committing with
  | some pendingOp =>
    let op := apply.Command.getD default
    let ok := apply.Command.isSome
    some ⟨(decide (op.SeqId ≠ pendingOp.SeqId) || decide (op.ClerkId ≠ pendingOp.ClerkId)
            || !ok || !apply.CommandValid),
          op.ServerId, err, value⟩
  | none => none

/-- One iteration of `commitProcess` for a message taken from the apply
channel (server.go lines 246-259): when `CommandValid`, execute the op
against `db` and overwrite `clerkTrack[ClerkId] := SeqId`; then
`servePendingRPC` hands (err, value) to the pending waiter, if any, within
the same step.  Returns the new state and the signalled waiter's fields. -/
def commitProcessStep (kv : KVState) (apply : ApplyMsg) :
    KVState × Option KVRPCRespFields :=
  let exec :=
    if apply.CommandValid then
      let op := apply.Command.getD default
      let r := execute kv.db op
      (r.1, updateClerkTrack kv.clerkTrack op.ClerkId op.SeqId, r.2.1, r.2.2)
    else
      (kv.db, kv.clerkTrack, "", "")
  let resp := servePendingRPC kv.committing apply exec.2.2.2 exec.2.2.1
  ({ kv with db := exec.1, clerkTrack := exec.2.1, committing := none }, resp)

/-- Modelled from the spec: kvraft/common.go is not under src/; §6 gives
`PutAppendArgs { clerkId, seqId, key, value, op }`. -/
structure PutAppendArgs where
  ClerkId : Int
  SeqId : Int
  Key : String
  Value : String
  Op : String
deriving DecidableEq, Repr

/-- Modelled from the spec: §6 gives
`PutAppendReply { wrongLeader, leader, err, server }`; Go zero values are
`false`, `0`, `""`. -/
structure PutAppendReply where
  WrongLeader : Bool
  Leader : Int
  Err : String
  Server : Int
deriving DecidableEq, Repr

/-- The `PUT, APPEND` branch of `issueToRAFT` (server.go lines 158-186).
`startIsLeader`/`startLeader` stand for the result of `kv.rf.Start(op)`,
and `commit` for the waiter fields produced by the apply path
(`waitingCommit`).  Returns the reply, the new `booting` flag, and whether
`Start` was invoked (the op was submitted to Raft). -/
def issuePutAppend (clerkTrack : Int → Option Int) (booting : Bool) (me : Int)
    (args : PutAppendArgs) (startIsLeader : Bool) (startLeader : Int)
    (commit : KVRPCRespFields) : PutAppendReply × Bool × Bool :=
  let chk := checkClerkTrack clerkTrack booting args.ClerkId args.SeqId
  match chk.1 with
  | .ClerkIgnore => (⟨false, 0, "", me⟩, chk.2, false)
  | .ClerkRetry => (⟨true, -1, "", me⟩, chk.2, false)
  | .ClerkOK =>
    if startIsLeader then
      (⟨commit.wrongLeader, commit.leader, commit.err, me⟩, chk.2, true)
    else
      (⟨true, startLeader, "", me⟩, chk.2, true)

/-- C6 counterexample.  A valid applied message for clerk 7 with `SeqId = 3`
while the tracked value is 5: the commit step overwrites
`clerkTrack[7] := 3`, which is NOT `max(5, 3) = 5` — the tracked sequence
number decreases. -/
theorem c6_counterexample :
    (fun c => if c = (7 : Int) then some (5 : Int) else none) 7 = some 5 ∧
    (commitProcessStep
        ⟨false, fun _ => none, fun c => if c = (7 : Int) then some (5 : Int) else none, none⟩
        ⟨true, some ⟨"Put", 0, 7, 3, "k", "x"⟩, 1⟩).1.clerkTrack 7 = some 3 ∧
    ¬ (commitProcessStep
        ⟨false, fun _ => none, fun c => if c = (7 : Int) then some (5 : Int) else none, none⟩
        ⟨true, some ⟨"Put", 0, 7, 3, "k", "x"⟩, 1⟩).1.clerkTrack 7 = some (max 5 3) := by
  refine ⟨rfl, rfl, ?_⟩
  intro h
  simp [commitProcessStep, updateClerkTrack] at h

/-- C6 amended.  For each valid message taken from the apply channel
carrying op `(ClerkId, SeqId)`, the KV server overwrites
`clerkTrack[ClerkId] := SeqId` unconditionally (NOT `max(prev, SeqId)`; the
tracked value decreases when an op with a smaller `SeqId` is applied), and
does so in the same step in which any pending waiter is signalled, so the
signalled waiter observes the updated tracker. -/
theorem c6_track_overwritten (kv : KVState) (apply : ApplyMsg) (op : Op)
    (hvalid : apply.CommandValid = true)
    (hcmd : apply.Command = some op) :
    (commitProcessStep kv apply).1.clerkTrack op.ClerkId = some op.SeqId ∧
    (kv.committing.isSome = true → ((commitProcessStep kv apply).2).isSome = true) := by
  constructor
  · simp [commitProcessStep, hvalid, hcmd, updateClerkTrack]
  · intro hw
    match hco : kv.committing with
    | some pendingOp => simp [commitProcessStep, servePendingRPC, hco]
    | none => rw [hco] at hw; simp at hw

/-- Witness for C6's amended theorem: clerk 7's tracked value 5 is
overwritten to 3 while the pending waiter is signalled in the same step. -/
theorem c6_track_overwritten_witness :
    (⟨true, some ⟨"Put", 0, 7, 3, "k", "x"⟩, 1⟩ : ApplyMsg).CommandValid = true ∧
    (commitProcessStep
        ⟨false, fun _ => none, fun c => if c = (7 : Int) then some (5 : Int) else none,
          some ⟨"Put", 0, 7, 3, "k", "x"⟩⟩
        ⟨true, some ⟨"Put", 0, 7, 3, "k", "x"⟩, 1⟩).1.clerkTrack 7 = some 3 ∧
    ((commitProcessStep
        ⟨false, fun _ => none, fun c => if c = (7 : Int) then some (5 : Int) else none,
          some ⟨"Put", 0, 7, 3, "k", "x"⟩⟩
        ⟨true, some ⟨"Put", 0, 7, 3, "k", "x"⟩, 1⟩).2).isSome = true :=
  ⟨rfl,
   (c6_track_overwritten
      ⟨false, fun _ => none, fun c => if c = (7 : Int) then some (5 : Int) else none,
        some ⟨"Put", 0, 7, 3, "k", "x"⟩⟩
      ⟨true, some ⟨"Put", 0, 7, 3, "k", "x"⟩, 1⟩
      ⟨"Put", 0, 7, 3, "k", "x"⟩ rfl rfl).1,
   (c6_track_overwritten
      ⟨false, fun _ => none, fun c => if c = (7 : Int) then some (5 : Int) else none,
        some ⟨"Put", 0, 7, 3, "k", "x"⟩⟩
      ⟨true, some ⟨"Put", 0, 7, 3, "k", "x"⟩, 1⟩
      ⟨"Put", 0, 7, 3, "k", "x"⟩ rfl rfl).2 rfl⟩

/-- C7 counterexample.  On a database where `"k"` is absent,
`Append("k", "")` does NOT leave the database unchanged: it inserts the
empty string, and a subsequent `Get("k")` answers `("", OK)` where before
the Append it answered `ErrNoKey`. -/
theorem c7_counterexample :
    (fun _ => (none : Option String)) "k" = none ∧
    (execute (fun _ => none) ⟨"Append", 0, 0, 0, "k", ""⟩).1 "k" = some "" ∧
    (execute (fun _ => none) ⟨"Get", 0, 0, 0, "k", ""⟩).2.2 = ErrNoKey ∧
    (execute ((execute (fun _ => none) ⟨"Append", 0, 0, 0, "k", ""⟩).1)
        ⟨"Get", 0, 0, 1, "k", ""⟩).2.2 = OK ∧
    (execute ((execute (fun _ => none) ⟨"Append", 0, 0, 0, "k", ""⟩).1)
        ⟨"Get", 0, 0, 1, "k", ""⟩).2.1 = "" := by
  refine ⟨rfl, ?_, ?_, ?_, ?_⟩ <;>
    simp [execute, PUT, GET, APPEND, OK, ErrNoKey]

/-- C7 amended.  Executing `Append(k, "")` maps `k` to
`(db k).getD "" ` — unchanged when `k` is present (since `v ++ "" = v`),
but newly inserted as `""` when `k` is absent (so a subsequent `Get(k)`
returns `("", OK)` instead of `ErrNoKey`); every other key is untouched,
and the Append itself reports `("", OK)`. -/
theorem c7_append_empty (db : String → Option String) (k : String) :
    (execute db ⟨"Append", 0, 0, 0, k, ""⟩).1 k = some ((db k).getD "") ∧
    (∀ k', k' ≠ k → (execute db ⟨"Append", 0, 0, 0, k, ""⟩).1 k' = db k') ∧
    (execute db ⟨"Append", 0, 0, 0, k, ""⟩).2.1 = "" ∧
    (execute db ⟨"Append", 0, 0, 0, k, ""⟩).2.2 = OK := by
  have hne1 : ("Append" : String) ≠ PUT := by simp [PUT]
  have hne2 : ("Append" : String) ≠ GET := by simp [GET]
  have heq : ("Append" : String) = APPEND := rfl
  unfold execute
  rw [if_neg hne1, if_neg hne2, if_pos heq]
  dsimp only
  cases hdb : db k with
  | none =>
    refine ⟨by simp, ?_, rfl, rfl⟩
    intro k' hk'
    simp [hk']
  | some v =>
    refine ⟨by simp [String.append_empty], ?_, rfl, rfl⟩
    intro k' hk'
    simp [hk']

/-- Witness for C7's amended theorem at `db = {"k" ↦ "v"}`. -/
theorem c7_append_empty_witness :
    (execute (fun x => if x = "k" then some "v" else none)
        ⟨"Append", 0, 0, 0, "k", ""⟩).1 "k" =
      some (((fun x => if x = "k" then some "v" else none) "k").getD "") ∧
    (execute (fun x => if x = "k" then some "v" else none)
        ⟨"Append", 0, 0, 0, "k", ""⟩).1 "j" =
      (fun x => if x = "k" then some "v" else none) "j" :=
  ⟨(c7_append_empty (fun x => if x = "k" then some "v" else none) "k").1,
   (c7_append_empty (fun x => if x = "k" then some "v" else none) "k").2.1 "j"
     (by decide)⟩

/-- C10 helper: the retry condition as the claim states it — the write's
`SeqId` is more than one ahead of the tracked value, or positive with no
tracked entry, or it is in sequence but the server is still booting. -/
def clerkRetryCond (clerkTrack : Int → Option Int) (booting : Bool)
    (clerkId sedId : Int) : Prop :=
  (∃ v, clerkTrack clerkId = some v ∧ v + 1 < sedId) ∨
  (clerkTrack clerkId = none ∧ 0 < sedId) ∨
  (booting = true ∧
    ((clerkTrack clerkId = none ∧ sedId = 0) ∨
     ∃ v, clerkTrack clerkId = some v ∧ sedId = v + 1))

/-- Under the retry condition, `checkClerkTrack` answers `ClerkRetry`. -/
theorem checkClerkTrack_retry (clerkTrack : Int → Option Int) (booting : Bool)
    (clerkId sedId : Int)
    (h : clerkRetryCond clerkTrack booting clerkId sedId) :
    ∃ b, checkClerkTrack clerkTrack booting clerkId sedId = (.ClerkRetry, b) := by
  rcases h with ⟨v, hv, hs⟩ | ⟨hv, hs⟩ | ⟨hb, ⟨hv, hs⟩ | ⟨v, hv, hs⟩⟩
  · refine ⟨booting, ?_⟩
    unfold checkClerkTrack
    rw [hv]
    rw [if_pos (Or.inr (show (some v : Option Int).getD 0 + 1 < sedId from hs))]
  · refine ⟨booting, ?_⟩
    unfold checkClerkTrack
    rw [hv]
    rw [if_pos (Or.inl ⟨show (none : Option Int).isSome = false from rfl, hs⟩)]
  · refine ⟨false, ?_⟩
    unfold checkClerkTrack
    rw [hv, hb]
    rw [if_neg ?hn,
      if_pos (Or.inl ⟨show (none : Option Int).isSome = false from rfl, hs⟩), if_pos rfl]
    case hn =>
      rintro (⟨-, hpos⟩ | hlt)
      · omega
      · revert hlt
        show ¬ ((none : Option Int).getD 0 + 1 < sedId)
        simp only [Option.getD_none]
        omega
  · refine ⟨false, ?_⟩
    unfold checkClerkTrack
    rw [hv, hb]
    rw [if_neg ?hn,
      if_pos (Or.inr (show sedId = (some v : Option Int).getD 0 + 1 from hs)), if_pos rfl]
    case hn =>
      rintro (⟨hfalse, -⟩ | hlt)
      · exact absurd hfalse (by simp)
      · revert hlt
        show ¬ ((some v).getD 0 + 1 < sedId)
        simp only [Option.getD_some]
        omega

/-- C10.  For a Put/Append whose `SeqId` is more than one ahead of the
tracked value for that clerk (or any positive `SeqId` with no tracked
entry), and for an in-sequence write while the `booting` flag is still set,
the KV server replies `WrongLeader = true` with leader hint `-1` and never
submits the op to Raft — even when `startIsLeader = true`, i.e. the node is
the current Raft leader. -/
theorem c10_retry_not_submitted (clerkTrack : Int → Option Int) (booting : Bool)
    (me : Int) (args : PutAppendArgs) (startIsLeader : Bool) (startLeader : Int)
    (commit : KVRPCRespFields)
    (h : clerkRetryCond clerkTrack booting args.ClerkId args.SeqId) :
    (issuePutAppend clerkTrack booting me args startIsLeader startLeader
      commit).1.WrongLeader = true ∧
    (issuePutAppend clerkTrack booting me args startIsLeader startLeader
      commit).1.Leader = -1 ∧
    (issuePutAppend clerkTrack booting me args startIsLeader startLeader
      commit).2.2 = false := by
  obtain ⟨b, hb⟩ := checkClerkTrack_retry clerkTrack booting args.ClerkId args.SeqId h
  unfold issuePutAppend
  rw [hb]
  exact ⟨rfl, rfl, rfl⟩

/-- Witness for C10: a freshly-started server (no tracked entry) receiving
a write with `SeqId = 5` refuses it with leader hint `-1` and does not call
`Start`, although `startIsLeader = true`. -/
theorem c10_retry_not_submitted_witness :
    clerkRetryCond (fun _ => none) false 9 5 ∧
    (issuePutAppend (fun _ => none) false 0 ⟨9, 5, "k", "x", "Put"⟩ true 0
      ⟨false, 0, "", ""⟩).1.WrongLeader = true ∧
    (issuePutAppend (fun _ => none) false 0 ⟨9, 5, "k", "x", "Put"⟩ true 0
      ⟨false, 0, "", ""⟩).1.Leader = -1 ∧
    (issuePutAppend (fun _ => none) false 0 ⟨9, 5, "k", "x", "Put"⟩ true 0
      ⟨false, 0, "", ""⟩).2.2 = false := by
  have hc : clerkRetryCond (fun _ => none) false 9 5 := Or.inr (Or.inl ⟨rfl, by omega⟩)
  have := c10_retry_not_submitted (fun _ => none) false 0 ⟨9, 5, "k", "x", "Put"⟩ true 0
    ⟨false, 0, "", ""⟩ hc
  exact ⟨hc, this.1, this.2.1, this.2.2⟩

end Raftkv
